import Mathlib

/-!
Shallow embedding of the queue-manager / automation-orchestration core of the
MangoFlow repository (the `QueueManager` class of the source, together with the
entry points `addToQueue`, `startFullAutomation`, `startFilterAutomation`,
`processNextItem`, `processQueueItem`, `handleProcessingError` and
`setMaxConcurrentWorkers`), and theorems settling the specification claims
about it.

Modelling conventions:
- JavaScript numbers are modelled as `Nat` / `Int`; the one fractional
  computation (`Math.floor` over division results in progress updates) is
  modelled as exact rational arithmetic with `Int.floor`.
- The event-emitter side effects (`this.emit(...)`) and the persistence
  side effects (`storage.addAutomationLog`, `storage.updateAutomationTask`,
  `storage.updateProcessedImage`, `storage.createProcessedImage`) are made
  explicit as fields of the machine state `MState`, newest entry first.
- External collaborators (the Chrome scraper, the Pixian background-removal
  client, the image storage writer) are parameters: a discovery outcome, a
  per-filter extraction function, a per-item success predicate.
- ECMAScript `Array.prototype.sort` is stable, so the source line
  `this.queue.sort((a, b) => b.priority - a.priority)` is modelled as a
  stable descending-priority sort (`sortByPriorityDesc`).
- The source field `isProcessing` is initialised to `false` and never
  assigned anywhere in the source, so the guard `if (!this.isProcessing)`
  in `addToQueue` always takes the dispatch branch.
-/

namespace MangoFlow

/-- Status of a queue item, source type
`'pending' | 'processing' | 'completed' | 'failed'`. -/
inductive ItemStatus
  | pending
  | processing
  | completed
  | failed
deriving DecidableEq

/-- Status of an automation task. -/
inductive TaskStatus
  | pending
  | running
  | completed
  | failed
deriving DecidableEq

/-- Log levels used by `storage.addAutomationLog`. -/
inductive LogLevel
  | info
  | warning
  | error
  | success
deriving DecidableEq

/-- Structured stand-ins for the log messages written by the queue manager;
the Korean message strings of the source are represented by one constructor
per call site (the claims only count and order log entries). -/
inductive LogKind
  | fullAutomationStart
  | scrapingStart
  | queuingProducts (count : Nat)
  | allQueued
  | automationFailed
  | downloadStart (itemId : Nat)
  | bgRemovalStart (itemId : Nat)
  | itemCompleted (itemId : Nat)
  | processingFailed (itemId : Nat) (retries : Nat)
  | filterAutomationStart
  | filterExtracted (filter : String) (count : Nat)
  | filterItemDone (productName : String)
  | filterItemFailed (productName : String)
  | filterAutomationDone (total : Nat)
  | filterAutomationFailed
deriving DecidableEq

/-- Events emitted through the EventEmitter (`this.emit(...)`). -/
inductive QEvent
  | queueUpdated (queueSize : Nat) (itemId : Nat)
  | itemProcessingStarted (itemId : Nat)
  | itemProcessingCompleted (itemId : Nat)
  | itemProcessingFailed (itemId : Nat)
  | automationProgress (taskId : Nat) (progress : Int)
deriving DecidableEq

/-- A discovered product; of the source fields only the display name is kept
(the image URL and category are opaque payload passed to collaborators). -/
structure Product where
  name : String
deriving DecidableEq

/-- Source interface `QueueItem`; the opaque payload fields `userId`,
`imageUrl`, `productName` are dropped, the control-flow-relevant fields are
kept. Priorities are integers (higher is sooner). -/
structure QueueItem where
  id : Nat
  taskId : Nat
  priority : Int
  status : ItemStatus
  retries : Nat
  maxRetries : Nat
deriving DecidableEq

/-- The persisted `AutomationTask` record (fields used by the core). -/
structure AutomationTask where
  id : Nat
  status : TaskStatus
  progress : Int
  totalItems : Nat
  processedItems : Nat
deriving DecidableEq

/-- One persisted log entry. -/
structure LogEntry where
  taskId : Nat
  level : LogLevel
  kind : LogKind
deriving DecidableEq

/-- The whole observable state of the queue manager plus its persistence
store and emitted events. Lists hold the newest entry first. -/
structure MState where
  queue : List QueueItem
  isProcessing : Bool
  concurrentWorkers : Nat
  maxConcurrentWorkers : Int
  task : AutomationTask
  images : List (Nat × ItemStatus)
  filterSaved : List String
  logs : List LogEntry
  events : List QEvent
  scrapeCalls : Nat
deriving DecidableEq

/-- Initial state: empty queue, no workers, limit 3 (source field
initialisers), and a single fresh task record slot in the store. -/
def initState : MState :=
  { queue := []
    isProcessing := false
    concurrentWorkers := 0
    maxConcurrentWorkers := 3
    task := { id := 1, status := TaskStatus.pending, progress := 0,
              totalItems := 0, processedItems := 0 }
    images := []
    filterSaved := []
    logs := []
    events := []
    scrapeCalls := 0 }

/-- Models `storage.addAutomationLog`. -/
def addLog (s : MState) (taskId : Nat) (level : LogLevel) (kind : LogKind) : MState :=
  { s with logs := { taskId := taskId, level := level, kind := kind } :: s.logs }

/-- Models `storage.updateAutomationTask(taskId, ...)` against the one-task
store: the update applies only to the record with the given id. -/
def updateTaskById (s : MState) (taskId : Nat) (f : AutomationTask → AutomationTask) : MState :=
  if taskId = s.task.id then { s with task := f s.task } else s

/-- Models `storage.updateProcessedImage(id, { status })`: the status of every
record with the given id is replaced. -/
def setImageStatus (images : List (Nat × ItemStatus)) (id : Nat) (st : ItemStatus) :
    List (Nat × ItemStatus) :=
  images.map (fun r => if r.1 = id then (r.1, st) else r)

/-- Models `emitProgress`: emits `automationProgress` with the floored
progress value (`Math.floor(progress)`). -/
def emitProgress (s : MState) (taskId : Nat) (progress : ℚ) : MState :=
  { s with events := QEvent.automationProgress taskId (Int.floor progress) :: s.events }

/-- Insert an element coming later in array order into a stable
descending-priority sorted accumulator: it goes after every element of
priority greater than or equal to its own. -/
def insertByPriority (x : QueueItem) : List QueueItem → List QueueItem
  | [] => [x]
  | y :: ys => if y.priority < x.priority then x :: y :: ys else y :: insertByPriority x ys

/-- Stable descending-priority sort, modelling the source line
`this.queue.sort((a, b) => b.priority - a.priority)` (ECMAScript sort is
stable). Implemented as left-to-right insertion sort, which is stable. -/
def sortByPriorityDesc (l : List QueueItem) : List QueueItem :=
  l.foldl (fun acc x => insertByPriority x acc) []

/-- Replace the first element satisfying the predicate (the source mutates
the single found object in place). -/
def updateFirst (p : QueueItem → Bool) (f : QueueItem → QueueItem) :
    List QueueItem → List QueueItem
  | [] => []
  | x :: xs => if p x then f x :: xs else x :: updateFirst p f xs

/-- The queue-mutation part of `addToQueue` (push, stable sort, emit
`queueUpdated` with the resulting queue length). -/
def pushAndSort (s : MState) (item : QueueItem) : MState :=
  let queue := sortByPriorityDesc (s.queue ++ [item])
  { s with queue := queue
           events := QEvent.queueUpdated queue.length item.id :: s.events }

/-- The item `processNextItem` would claim: `none` when the guard
`concurrentWorkers >= maxConcurrentWorkers || queue.length === 0` fires or no
pending item exists, otherwise the first pending item of the queue array. -/
def nextPendingItem (s : MState) : Option QueueItem :=
  if s.maxConcurrentWorkers ≤ (s.concurrentWorkers : Int) ∨ s.queue.length = 0 then none
  else s.queue.find? (fun i => decide (i.status = ItemStatus.pending))

/-- The synchronous claim prefix of `processNextItem`: guard, find the first
pending item, increment the worker counter, mark the item processing, emit
`itemProcessingStarted`. The asynchronous pipeline outcome is a separate
step (`completeItem` / `failItem`). -/
def processNextItem (s : MState) : MState :=
  match nextPendingItem s with
  | none => s
  | some item =>
      { s with
        concurrentWorkers := s.concurrentWorkers + 1
        queue := updateFirst (fun i => decide (i.status = ItemStatus.pending))
                   (fun i => { i with status := ItemStatus.processing }) s.queue
        events := QEvent.itemProcessingStarted item.id :: s.events }

/-- Source `addToQueue`: push and sort, emit `queueUpdated`, then (since
`isProcessing` is never set anywhere in the source) immediately run the
synchronous prefix of `processNextItem`. -/
def addToQueue (s : MState) (item : QueueItem) : MState :=
  let s1 := pushAndSort s item
  if s1.isProcessing then s1 else processNextItem s1

/-- The uncapped progress value computed on item completion, source lines:
`task.totalItems > 0 ? 40 + Math.floor((newProcessedCount / task.totalItems) * 60) : 100`. -/
def completionProgress (task : AutomationTask) : Int :=
  if 0 < task.totalItems then
    40 + Int.floor ((((task.processedItems : ℚ) + 1) / (task.totalItems : ℚ)) * 60)
  else 100

/-- The task update performed on item completion:
`processedItems := +1`, `progress := Math.min(progress, 100)`,
`status := newProcessedCount >= task.totalItems ? completed : running`. -/
def applyCompletionToTask (task : AutomationTask) : AutomationTask :=
  { task with
    processedItems := task.processedItems + 1
    progress := min (completionProgress task) 100
    status := if task.totalItems ≤ task.processedItems + 1
              then TaskStatus.completed else TaskStatus.running }

/-- The success path of `processQueueItem`: the two info logs, the persisted
image record update, the task progress update with `automationProgress`
emission (guarded by the task lookup succeeding, i.e. the task id matching),
the success log, and the in-place `item.status = completed`. -/
def processQueueItemSuccess (s : MState) (item : QueueItem) : MState :=
  let s1 := addLog s item.taskId LogLevel.info (LogKind.downloadStart item.id)
  let s2 := addLog s1 item.taskId LogLevel.info (LogKind.bgRemovalStart item.id)
  let s3 := { s2 with images := setImageStatus s2.images item.id ItemStatus.completed }
  let s4 :=
    if item.taskId = s3.task.id then
      { s3 with task := applyCompletionToTask s3.task
                events := QEvent.automationProgress item.taskId
                            (completionProgress s3.task) :: s3.events }
    else s3
  let s5 := addLog s4 item.taskId LogLevel.success (LogKind.itemCompleted item.id)
  { s5 with queue := updateFirst (fun i => decide (i.id = item.id))
              (fun i => { i with status := ItemStatus.completed }) s5.queue }

/-- The completion continuation of `processNextItem` for an item claimed
earlier: run the `processQueueItem` success effects, remove the item from
the queue, emit `itemProcessingCompleted`, and decrement the worker counter
(the `finally` block). -/
def completeItem (s : MState) (itemId : Nat) : MState :=
  match s.queue.find? (fun i => decide (i.id = itemId)) with
  | none => { s with concurrentWorkers := s.concurrentWorkers - 1 }
  | some item =>
      let s1 := processQueueItemSuccess s item
      let s2 := { s1 with
                  queue := s1.queue.filter (fun i => decide (i.id ≠ itemId))
                  events := QEvent.itemProcessingCompleted item.id :: s1.events }
      { s2 with concurrentWorkers := s2.concurrentWorkers - 1 }

/-- Source `handleProcessingError`: increment the retry count, write the
error log, then either terminal failure (mark failed, persist the failure,
remove from the queue, emit `itemProcessingFailed`) when
`item.retries >= item.maxRetries`, or requeue (status pending, priority
demoted by one with floor 0). -/
def handleProcessingError (s : MState) (itemId : Nat) : MState :=
  match s.queue.find? (fun i => decide (i.id = itemId)) with
  | none => s
  | some item =>
      let retries := item.retries + 1
      let s1 := addLog s item.taskId LogLevel.error (LogKind.processingFailed item.id retries)
      if item.maxRetries ≤ retries then
        let queueFailed := updateFirst (fun i => decide (i.id = itemId))
          (fun i => { i with retries := retries, status := ItemStatus.failed }) s1.queue
        let s2 := { s1 with images := setImageStatus s1.images item.id ItemStatus.failed }
        let s3 := { s2 with queue := queueFailed.filter (fun i => decide (i.id ≠ itemId)) }
        { s3 with events := QEvent.itemProcessingFailed item.id :: s3.events }
      else
        let requeued := updateFirst (fun i => decide (i.id = itemId))
          (fun i => { i with retries := retries, status := ItemStatus.pending,
                             priority := max 0 (i.priority - 1) }) s1.queue
        { s1 with queue := requeued }

/-- The failure continuation of `processNextItem`: `handleProcessingError`
followed by the worker-counter decrement of the `finally` block. -/
def failItem (s : MState) (itemId : Nat) : MState :=
  let s1 := handleProcessingError s itemId
  { s1 with concurrentWorkers := s1.concurrentWorkers - 1 }

/-- Source `setMaxConcurrentWorkers`:
`this.maxConcurrentWorkers = Math.max(1, Math.min(10, max))`. -/
def setMaxConcurrentWorkers (s : MState) (n : Int) : MState :=
  { s with maxConcurrentWorkers := max 1 (min 10 n) }

/-- The filter loop of `startFilterAutomation` (stage 2): per filter, emit
the per-filter progress `20 + (i / filters.length) * 40`, extract the
thumbnails for that filter through the collaborator, and log the extraction
result; the discovered products of all filters are concatenated in order.
Progress emissions made inside the collaborator callback are external
behaviour and not modelled. -/
def runFilters (taskId : Nat) (extract : String → List Product) (total : Nat) :
    MState → Nat → List String → MState × List Product
  | s, _, [] => (s, [])
  | s, i, f :: fs =>
      let filterProgress : ℚ := 20 + ((i : ℚ) / (total : ℚ)) * 40
      let s1 := emitProgress s taskId filterProgress
      let products := extract f
      let s2 := addLog s1 taskId LogLevel.info (LogKind.filterExtracted f products.length)
      let (s3, rest) := runFilters taskId extract total s2 (i + 1) fs
      (s3, products ++ rest)

/-- The per-item loop of `startFilterAutomation` (stage 3): per product,
emit the per-item progress `60 + (i / allProducts.length) * 35`, run the
background removal; on success persist the processed image and write the
info log, on an unsuccessful result write the warning log; in both cases
set the task record field `processedItems := i + 1`. -/
def runFilterItems (taskId : Nat) (bgOk : Product → Bool) (total : Nat) :
    MState → Nat → List Product → MState
  | s, _, [] => s
  | s, i, p :: ps =>
      let processProgress : ℚ := 60 + ((i : ℚ) / (total : ℚ)) * 35
      let s1 := emitProgress s taskId processProgress
      let s2 :=
        if bgOk p then
          let sA := { s1 with filterSaved := p.name :: s1.filterSaved }
          addLog sA taskId LogLevel.info (LogKind.filterItemDone p.name)
        else
          addLog s1 taskId LogLevel.warning (LogKind.filterItemFailed p.name)
      let s3 := updateTaskById s2 taskId (fun t => { t with processedItems := i + 1 })
      runFilterItems taskId bgOk total s3 (i + 1) ps

/-- Source `startFilterAutomation`: start log, login (progress 10); on login
failure the thrown error is caught by the top-level handler, which marks the
task failed with progress 0 and writes the error log (the rethrow propagates
to the caller only). On success: the filter loop (20 to 60 percent), the
task update `progress := 60, totalItems := allProducts.length`, the inline
per-item loop, and the completion updates (status completed, progress 100,
final progress event and log). Chrome initialisation is assumed available
(collaborator behaviour). -/
def startFilterAutomation (s : MState) (taskId : Nat) (filters : List String)
    (extract : String → List Product) (bgOk : Product → Bool) (loginOk : Bool) : MState :=
  let s1 := addLog s taskId LogLevel.info LogKind.filterAutomationStart
  let s2 := updateTaskById s1 taskId (fun t => { t with progress := 10 })
  let s3 := emitProgress s2 taskId 10
  if loginOk = false then
    let sE := updateTaskById s3 taskId
      (fun t => { t with status := TaskStatus.failed, progress := 0 })
    addLog sE taskId LogLevel.error LogKind.filterAutomationFailed
  else
    let r := runFilters taskId extract filters.length s3 0 filters
    let s4 := r.1
    let allProducts := r.2
    let s5 := updateTaskById s4 taskId
      (fun t => { t with progress := 60, totalItems := allProducts.length })
    let s6 := runFilterItems taskId bgOk allProducts.length s5 0 allProducts
    let s7 := updateTaskById s6 taskId
      (fun t => { t with status := TaskStatus.completed, progress := 100 })
    let s8 := emitProgress s7 taskId 100
    addLog s8 taskId LogLevel.info (LogKind.filterAutomationDone allProducts.length)

/-- The queuing loop of `processFullAutomation`: per discovered product,
create the persisted pending image record and enqueue the corresponding
queue item with priority 1, zero retries and `maxRetries := 3` (record ids
are modelled by the discovery index). -/
def enqueueProducts (taskId : Nat) : MState → Nat → List Product → MState
  | s, _, [] => s
  | s, i, _p :: ps =>
      let s1 := { s with images := (i, ItemStatus.pending) :: s.images }
      let s2 := addToQueue s1
        { id := i, taskId := taskId, priority := 1, status := ItemStatus.pending,
          retries := 0, maxRetries := 3 }
      enqueueProducts taskId s2 (i + 1) ps

/-- Source `processFullAutomation`: the scraping log, one call to the
scraping collaborator (the `scrapeCalls` counter records that it is invoked
exactly once, with no retry loop); on a collaborator rejection the error
propagates with the state written so far; on success the task totals update,
the queuing loop and the queued logs. The collaborator progress callback
emissions are external behaviour and not modelled. -/
def processFullAutomation (s : MState) (taskId : Nat)
    (disc : Except String (List Product)) : Except (String × MState) MState :=
  let s1 := addLog s taskId LogLevel.info LogKind.scrapingStart
  let s2 := { s1 with scrapeCalls := s1.scrapeCalls + 1 }
  match disc with
  | Except.error e => Except.error (e, s2)
  | Except.ok products =>
      let s3 := updateTaskById s2 taskId
        (fun t => { t with totalItems := products.length, progress := 30 })
      let s4 := addLog s3 taskId LogLevel.info (LogKind.queuingProducts products.length)
      let s5 := enqueueProducts taskId s4 0 products
      let s6 := updateTaskById s5 taskId
        (fun t => { t with progress := 40, status := TaskStatus.running })
      Except.ok (addLog s6 taskId LogLevel.success LogKind.allQueued)

/-- Source `startFullAutomation`: create the running task record, write the
start log, and run `processFullAutomation` in the background with a `catch`
handler: a rejection marks the task failed with progress 0 and writes the
error log. The function always returns a state (the rejection never escapes
the handler). -/
def startFullAutomation (s : MState) (disc : Except String (List Product)) : MState :=
  let task : AutomationTask :=
    { id := s.task.id, status := TaskStatus.running, progress := 0,
      totalItems := 0, processedItems := 0 }
  let s1 := { s with task := task }
  let s2 := addLog s1 task.id LogLevel.info LogKind.fullAutomationStart
  match processFullAutomation s2 task.id disc with
  | Except.ok s3 => s3
  | Except.error (_e, sE) =>
      let sF := updateTaskById sE task.id
        (fun t => { t with status := TaskStatus.failed, progress := 0 })
      addLog sF task.id LogLevel.error LogKind.automationFailed

/-- One atomic step of the queue manager: an `addToQueue` call (which also
runs the synchronous dispatch prefix), a dispatch-loop tick, the completion
or failure continuation of a previously claimed (processing) item, or a
`setMaxConcurrentWorkers` call. -/
inductive QStep : MState → MState → Prop
  | add (s : MState) (item : QueueItem) : QStep s (addToQueue s item)
  | tick (s : MState) : QStep s (processNextItem s)
  | complete (s : MState) (itemId : Nat)
      (h : s.queue.any
        (fun i => decide (i.id = itemId) && decide (i.status = ItemStatus.processing)) = true) :
      QStep s (completeItem s itemId)
  | fail (s : MState) (itemId : Nat)
      (h : s.queue.any
        (fun i => decide (i.id = itemId) && decide (i.status = ItemStatus.processing)) = true) :
      QStep s (failItem s itemId)
  | setMax (s : MState) (n : Int) : QStep s (setMaxConcurrentWorkers s n)

/-- States reachable from the initial state by queue-manager steps. -/
inductive QReach : MState → Prop
  | init : QReach initState
  | step {s t : MState} : QReach s → QStep s t → QReach t

/-- Steps excluding `setMaxConcurrentWorkers` calls. -/
inductive QStepNS : MState → MState → Prop
  | add (s : MState) (item : QueueItem) : QStepNS s (addToQueue s item)
  | tick (s : MState) : QStepNS s (processNextItem s)
  | complete (s : MState) (itemId : Nat)
      (h : s.queue.any
        (fun i => decide (i.id = itemId) && decide (i.status = ItemStatus.processing)) = true) :
      QStepNS s (completeItem s itemId)
  | fail (s : MState) (itemId : Nat)
      (h : s.queue.any
        (fun i => decide (i.id = itemId) && decide (i.status = ItemStatus.processing)) = true) :
      QStepNS s (failItem s itemId)

/-- States reachable from the initial state without any
`setMaxConcurrentWorkers` call. -/
inductive QReachNS : MState → Prop
  | init : QReachNS initState
  | step {s t : MState} : QReachNS s → QStepNS s t → QReachNS t

/-- Recogniser for `queueUpdated` events. -/
def isQueueUpdatedEvent : QEvent → Bool
  | QEvent.queueUpdated _ _ => true
  | _ => false

/-- Recogniser for `itemProcessingStarted` events. -/
def isStartedEvent : QEvent → Bool
  | QEvent.itemProcessingStarted _ => true
  | _ => false

/-- Recogniser for `itemProcessingCompleted` events. -/
def isCompletedEvent : QEvent → Bool
  | QEvent.itemProcessingCompleted _ => true
  | _ => false

/-- Recogniser for `itemProcessingFailed` events. -/
def isFailedEvent : QEvent → Bool
  | QEvent.itemProcessingFailed _ => true
  | _ => false

/-- Recogniser for the per-attempt error log written by
`handleProcessingError`. -/
def isAttemptErrorLog : LogEntry → Bool
  | { level := LogLevel.error, kind := LogKind.processingFailed _ _, .. } => true
  | _ => false

/-- The queue sizes carried by the `queueUpdated` events of an event list. -/
def queueUpdatedSizes (evs : List QEvent) : List Nat :=
  evs.filterMap (fun e => match e with
    | QEvent.queueUpdated n _ => some n
    | _ => none)

/-- The product names of the per-item success logs of the filtered path. -/
def filterItemDoneNames (logs : List LogEntry) : List String :=
  logs.filterMap (fun l => match l.kind with
    | LogKind.filterItemDone n => some n
    | _ => none)

/-- The per-filter extraction logs (filter name and discovered count). -/
def filterExtractedResults (logs : List LogEntry) : List (String × Nat) :=
  logs.filterMap (fun l => match l.kind with
    | LogKind.filterExtracted f c => some (f, c)
    | _ => none)

/-- Fold a sequence of enqueue insertions (the queue-mutation part of
`addToQueue`) over a state. -/
def enqueueAll (s : MState) (items : List QueueItem) : MState :=
  items.foldl pushAndSort s

/-- The queue is in descending priority order. -/
def SortedByPriority (l : List QueueItem) : Prop :=
  List.Sorted (fun a b => b.priority ≤ a.priority) l

/-- The sublist of items of one given priority, in queue order. -/
def filterPriority (p : Int) (l : List QueueItem) : List QueueItem :=
  l.filter (fun i => decide (i.priority = p))

/-- Scenario state for claim C1: a single work item whose pipeline stage
always fails, with `maxRetries = 3` and initial priority 1. -/
def c1Item : QueueItem :=
  { id := 0, taskId := 1, priority := 1, status := ItemStatus.pending,
    retries := 0, maxRetries := 3 }

/-- C1 scenario after the enqueue (the claim prefix runs inside
`addToQueue` and claims the item: first processing attempt). -/
def c1AfterAdd : MState := addToQueue initState c1Item

/-- C1 scenario after the first stage failure. -/
def c1AfterFail1 : MState := failItem c1AfterAdd 0

/-- C1 scenario after the dispatch tick claiming the second attempt. -/
def c1AfterClaim2 : MState := processNextItem c1AfterFail1

/-- C1 scenario after the second stage failure. -/
def c1AfterFail2 : MState := failItem c1AfterClaim2 0

/-- C1 scenario after the dispatch tick claiming the third attempt. -/
def c1AfterClaim3 : MState := processNextItem c1AfterFail2

/-- C1 scenario after the third stage failure (terminal). -/
def c1Final : MState := failItem c1AfterClaim3 0

/-- Work items for the claim C2 counterexample trace. -/
def c2w1 : QueueItem :=
  { id := 1, taskId := 1, priority := 1, status := ItemStatus.pending,
    retries := 0, maxRetries := 3 }

/-- Second work item of the C2 trace. -/
def c2w2 : QueueItem :=
  { id := 2, taskId := 1, priority := 1, status := ItemStatus.pending,
    retries := 0, maxRetries := 3 }

/-- Third work item of the C2 trace. -/
def c2w3 : QueueItem :=
  { id := 3, taskId := 1, priority := 1, status := ItemStatus.pending,
    retries := 0, maxRetries := 3 }

/-- C2 counterexample state: three items enqueued (each claimed by the
dispatch prefix of `addToQueue`, so three workers are active), then
`setMaxConcurrentWorkers(1)`. -/
def c2Bad : MState :=
  setMaxConcurrentWorkers (addToQueue (addToQueue (addToQueue initState c2w1) c2w2) c2w3) 1

/-- Filler items for the C3 counterexample trace (claimed first so that the
two priority-5 items stay pending). -/
def c3j1 : QueueItem :=
  { id := 10, taskId := 1, priority := 1, status := ItemStatus.pending,
    retries := 0, maxRetries := 3 }

/-- Second filler item of the C3 trace. -/
def c3j2 : QueueItem :=
  { id := 11, taskId := 1, priority := 1, status := ItemStatus.pending,
    retries := 0, maxRetries := 3 }

/-- Third filler item of the C3 trace. -/
def c3j3 : QueueItem :=
  { id := 12, taskId := 1, priority := 1, status := ItemStatus.pending,
    retries := 0, maxRetries := 3 }

/-- The item that gets demoted in the C3 counterexample. -/
def c3ItemA : QueueItem :=
  { id := 0, taskId := 1, priority := 5, status := ItemStatus.pending,
    retries := 0, maxRetries := 3 }

/-- The higher-priority pending item passed over in the C3 counterexample. -/
def c3ItemB : QueueItem :=
  { id := 1, taskId := 1, priority := 5, status := ItemStatus.pending,
    retries := 0, maxRetries := 3 }

/-- C3 trace: three fillers enqueued and claimed, then the two priority-5
items enqueued while all workers are busy. -/
def c3Enqueued : MState :=
  addToQueue (addToQueue (addToQueue (addToQueue (addToQueue initState c3j1) c3j2) c3j3)
    c3ItemA) c3ItemB

/-- C3 trace: the first filler completes, freeing a worker. -/
def c3AfterComplete : MState := completeItem c3Enqueued 10

/-- C3 trace: the dispatch tick claims the first pending item (item A). -/
def c3AfterClaim : MState := processNextItem c3AfterComplete

/-- C3 counterexample state: item A failed once, was requeued with demoted
priority, and the queue was not re-sorted. -/
def c3Demoted : MState := failItem c3AfterClaim 0

/-- Item A as it stands in the queue after the demotion. -/
def c3DemotedA : QueueItem :=
  { id := 0, taskId := 1, priority := 4, status := ItemStatus.pending,
    retries := 1, maxRetries := 3 }

/-- Witness items for the amended C3 theorem: priorities 2, 5, 5. -/
def c3WitItems : List QueueItem :=
  [{ id := 1, taskId := 1, priority := 2, status := ItemStatus.pending,
     retries := 0, maxRetries := 3 },
   { id := 2, taskId := 1, priority := 5, status := ItemStatus.pending,
     retries := 0, maxRetries := 3 },
   { id := 3, taskId := 1, priority := 5, status := ItemStatus.pending,
     retries := 0, maxRetries := 3 }]

/-- A claimed (processing) work item for the C4 witness. -/
def c4Item : QueueItem :=
  { id := 7, taskId := 1, priority := 1, status := ItemStatus.processing,
    retries := 0, maxRetries := 3 }

/-- C4 witness state: a running task with 3 total items, none processed
yet, and one claimed item. -/
def c4State : MState :=
  { initState with
    queue := [c4Item]
    concurrentWorkers := 1
    task := { id := 1, status := TaskStatus.running, progress := 40,
              totalItems := 3, processedItems := 0 } }

/-- A claimed work item on its third attempt for the C5 witness. -/
def c5Item : QueueItem :=
  { id := 7, taskId := 1, priority := 0, status := ItemStatus.processing,
    retries := 2, maxRetries := 3 }

/-- C5 witness state: the claimed item plus its persisted record. -/
def c5State : MState :=
  { initState with
    queue := [c5Item]
    concurrentWorkers := 1
    images := [(7, ItemStatus.processing)]
    task := { id := 1, status := TaskStatus.running, progress := 40,
              totalItems := 3, processedItems := 1 } }

/-- The extraction collaborator of the C6 scenario: filter A discovers two
items, filter B three. -/
def extractAB : String → List Product := fun f =>
  if f = "A" then [{ name := "a1" }, { name := "a2" }]
  else if f = "B" then [{ name := "b1" }, { name := "b2" }, { name := "b3" }]
  else []

/-- C6 start state: the task record of the filtered run. -/
def c6Start : MState :=
  { initState with task := { initState.task with status := TaskStatus.running } }

/-- The C6 scenario run: filters A then B, every item succeeding. -/
def c6Run : MState :=
  startFilterAutomation c6Start 1 ["A", "B"] extractAB (fun _ => true) true

/-- The work item of the C7 counterexample trace. -/
def c7Item : QueueItem :=
  { id := 5, taskId := 1, priority := 1, status := ItemStatus.pending,
    retries := 0, maxRetries := 3 }

/-- C7 trace: the item enqueued (one `queueUpdated` emitted) and claimed. -/
def c7AfterAdd : MState := addToQueue initState c7Item

/-- C7 counterexample state: the item completed and was removed from the
queue. -/
def c7End : MState := completeItem c7AfterAdd 5

/-- A claimed work item for the C10 witness. -/
def c10Item : QueueItem :=
  { id := 8, taskId := 1, priority := 1, status := ItemStatus.processing,
    retries := 0, maxRetries := 3 }

/-- C10 witness state: the owning task has `totalItems = 0`. -/
def c10State : MState :=
  { initState with
    queue := [c10Item]
    concurrentWorkers := 1
    task := { id := 1, status := TaskStatus.running, progress := 40,
              totalItems := 0, processedItems := 0 } }

/-- C1 counterexample: for an always-failing item with `maxRetries = 3`,
the reachable terminal state records exactly 3 processing attempts (3
`itemProcessingStarted` events and 3 per-attempt error logs), not the 4 the
claim states: `handleProcessingError` increments the retry count before
comparing it with `maxRetries`, so terminal failure is declared on the
third attempt. -/
theorem retry_attempts_three_not_four :
    QReach c1Final ∧
    c1Final.queue = [] ∧
    c1Final.events.countP isFailedEvent = 1 ∧
    c1Final.events.countP isStartedEvent = 3 ∧
    c1Final.logs.countP isAttemptErrorLog = 3 ∧
    ¬ c1Final.logs.countP isAttemptErrorLog = 4 := by
  refine ⟨?_, by decide, by decide, by decide, by decide, by decide⟩
  exact QReach.step
    (QReach.step
      (QReach.step
        (QReach.step
          (QReach.step (QReach.step QReach.init (QStep.add initState c1Item))
            (QStep.fail c1AfterAdd 0 (by decide)))
          (QStep.tick c1AfterFail1))
        (QStep.fail c1AfterClaim2 0 (by decide)))
      (QStep.tick c1AfterFail2))
    (QStep.fail c1AfterClaim3 0 (by decide))

/-- C1 (amended): for a work item whose stage always fails and whose
`maxRetries` is 3, the item transitions pending to processing to pending
twice, then pending to processing to failed, with exactly 3 processing
attempts recorded in the log before terminal failure is declared:
`handleProcessingError` increments the retry count on each failure and
declares terminal failure when the incremented count reaches `maxRetries`. -/
theorem alwaysFailing_item_three_attempts :
    c1AfterAdd.queue = [{ c1Item with status := ItemStatus.processing }] ∧
    c1AfterFail1.queue =
      [{ c1Item with status := ItemStatus.pending, retries := 1, priority := 0 }] ∧
    c1AfterClaim2.queue =
      [{ c1Item with status := ItemStatus.processing, retries := 1, priority := 0 }] ∧
    c1AfterFail2.queue =
      [{ c1Item with status := ItemStatus.pending, retries := 2, priority := 0 }] ∧
    c1AfterClaim3.queue =
      [{ c1Item with status := ItemStatus.processing, retries := 2, priority := 0 }] ∧
    c1Final.queue = [] ∧
    c1Final.events.countP isStartedEvent = 3 ∧
    c1Final.logs.countP isAttemptErrorLog = 3 ∧
    c1Final.events.countP isFailedEvent = 1 ∧
    QEvent.itemProcessingFailed 0 ∈ c1Final.events := by
  decide

/-- C2 counterexample: a reachable state (three items enqueued and claimed,
then `setMaxConcurrentWorkers(1)`) in which the number of active workers
exceeds the configured maximum, refuting the invariant for interleavings
containing `setMaxConcurrentWorkers` calls. -/
theorem worker_cap_violated_after_setMax :
    QReach c2Bad ∧
    c2Bad.concurrentWorkers = 3 ∧
    c2Bad.maxConcurrentWorkers = 1 ∧
    ¬ ((c2Bad.concurrentWorkers : Int) ≤ c2Bad.maxConcurrentWorkers) := by
  refine ⟨?_, by decide, by decide, by decide⟩
  exact QReach.step
    (QReach.step
      (QReach.step (QReach.step QReach.init (QStep.add initState c2w1))
        (QStep.add (addToQueue initState c2w1) c2w2))
      (QStep.add (addToQueue (addToQueue initState c2w1) c2w2) c2w3))
    (QStep.setMax (addToQueue (addToQueue (addToQueue initState c2w1) c2w2) c2w3) 1)

/-- C3 counterexample: in the reachable state `c3Demoted` the retry path
has demoted item A to priority 4 without re-sorting the queue, so the next
claim picks A even though item B is pending with priority 5: the next item
claimed is not of maximal priority among pending items. -/
theorem claim_not_max_priority_after_demotion :
    QReach c3Demoted ∧
    nextPendingItem c3Demoted = some c3DemotedA ∧
    c3DemotedA.priority = 4 ∧
    c3ItemB ∈ c3Demoted.queue ∧
    c3ItemB.status = ItemStatus.pending ∧
    c3DemotedA.priority < c3ItemB.priority := by
  refine ⟨?_, by decide, by decide, by decide, by decide, by decide⟩
  exact QReach.step
    (QReach.step
      (QReach.step
        (QReach.step
          (QReach.step
            (QReach.step
              (QReach.step (QReach.step QReach.init (QStep.add initState c3j1))
                (QStep.add (addToQueue initState c3j1) c3j2))
              (QStep.add (addToQueue (addToQueue initState c3j1) c3j2) c3j3))
            (QStep.add (addToQueue (addToQueue (addToQueue initState c3j1) c3j2) c3j3) c3ItemA))
          (QStep.add
            (addToQueue (addToQueue (addToQueue (addToQueue initState c3j1) c3j2) c3j3) c3ItemA)
            c3ItemB))
        (QStep.complete c3Enqueued 10 (by decide)))
      (QStep.tick c3AfterComplete))
    (QStep.fail c3AfterClaim 0 (by decide))

/-- C6 counterexample: in the filtered automation scenario over filters A
and B with 2 and 3 discovered items, all succeeding, the run emits zero
`itemProcessingCompleted` events, not five: the filtered path processes
items inline and never emits that event. -/
theorem filter_run_emits_no_itemProcessingCompleted :
    c6Run.events.countP isCompletedEvent = 0 ∧
    ¬ c6Run.events.countP isCompletedEvent = 5 := by
  decide

/-- C6 (amended): the filtered scenario over filters A and B processes all
five discovered items in discovery order with the filters in listed order
(one persisted image and one success log per item, in that order), ends the
task completed with all five counted, but emits zero
`itemProcessingCompleted` events (it reports per-item progress through
`automationProgress` events instead). -/
theorem filter_run_scenario_behaviour :
    c6Run.events.countP isCompletedEvent = 0 ∧
    c6Run.filterSaved.reverse = ["a1", "a2", "b1", "b2", "b3"] ∧
    (filterItemDoneNames c6Run.logs).reverse = ["a1", "a2", "b1", "b2", "b3"] ∧
    (filterExtractedResults c6Run.logs).reverse = [("A", 2), ("B", 3)] ∧
    c6Run.task.status = TaskStatus.completed ∧
    c6Run.task.progress = 100 ∧
    c6Run.task.processedItems = 5 := by
  decide

/-- C7 counterexample: a reachable trace with one enqueue and one removal
(the item completed): the only `queueUpdated` event carries the size
resulting from the enqueue, and no `queueUpdated` event was emitted for the
removal, refuting the claim that every removal triggers one. -/
theorem removal_emits_no_queueUpdated :
    QReach c7End ∧
    c7End.queue = [] ∧
    QEvent.itemProcessingCompleted 5 ∈ c7End.events ∧
    queueUpdatedSizes c7End.events = [1] := by
  refine ⟨?_, by decide, by decide, by decide⟩
  exact QReach.step (QReach.step QReach.init (QStep.add initState c7Item))
    (QStep.complete c7AfterAdd 5 (by decide))

/-- C9 (confirmed): `setMaxConcurrentWorkers(n)` clamps the limit into the
interval 1 to 10: the result is always within the interval, equals n when n
already lies in it, and in particular 0 clamps to 1 and 50 clamps to 10. -/
theorem setMaxConcurrentWorkers_clamps (s : MState) (n : Int) :
    1 ≤ (setMaxConcurrentWorkers s n).maxConcurrentWorkers ∧
    (setMaxConcurrentWorkers s n).maxConcurrentWorkers ≤ 10 ∧
    (1 ≤ n → n ≤ 10 → (setMaxConcurrentWorkers s n).maxConcurrentWorkers = n) ∧
    (setMaxConcurrentWorkers s 0).maxConcurrentWorkers = 1 ∧
    (setMaxConcurrentWorkers s 50).maxConcurrentWorkers = 10 := by
  simp only [setMaxConcurrentWorkers]
  refine ⟨?_, ?_, ?_, ?_, ?_⟩ <;> omega

/-- Witness for C9: at the in-range input 7 the hypotheses of the clamp
theorem hold and the limit is set to 7 unchanged. -/
theorem setMaxConcurrentWorkers_clamps_witness :
    ((1 : Int) ≤ 7 ∧ (7 : Int) ≤ 10) ∧
    (setMaxConcurrentWorkers initState 7).maxConcurrentWorkers = 7 :=
  ⟨⟨by decide, by decide⟩,
    (setMaxConcurrentWorkers_clamps initState 7).2.2.1 (by decide) (by decide)⟩

/-- Helper: when the completed item is found in the queue and belongs to
the stored task, the task record after the completion continuation is the
source task update of `processQueueItem`. -/
theorem completeItem_task_eq (s : MState) (itemId : Nat) (item : QueueItem)
    (hfind : s.queue.find? (fun i => decide (i.id = itemId)) = some item)
    (htask : item.taskId = s.task.id) :
    (completeItem s itemId).task = applyCompletionToTask s.task := by
  unfold completeItem
  rw [hfind]
  simp [processQueueItemSuccess, addLog, htask]

/-- Helper: the uncapped completion progress with a positive item total is
40 plus the floored per-item share. -/
theorem completionProgress_eq_div (t : AutomationTask) (h : 0 < t.totalItems) :
    completionProgress t
      = 40 + ((60 * (t.processedItems + 1) : ℕ) : ℤ) / ((t.totalItems : ℕ) : ℤ) := by
  unfold completionProgress
  rw [if_pos h]
  congr 1
  have hcast : (((t.processedItems : ℚ) + 1) / (t.totalItems : ℚ)) * 60
      = ((60 * (t.processedItems + 1) : ℕ) : ℚ) / ((t.totalItems : ℕ) : ℚ) := by
    push_cast
    ring
  rw [hcast, Rat.floor_natCast_div_natCast]

/-- C4 (confirmed): when a work item completes and its task has a positive
item total, the task record gets `processedItems` incremented by one,
progress `40 + floor(processedItems / totalItems * 60)` capped at 100, and
when the incremented count reaches `totalItems` the status is completed and
the progress is exactly 100. -/
theorem completion_updates_task_progress (s : MState) (itemId : Nat) (item : QueueItem)
    (hfind : s.queue.find? (fun i => decide (i.id = itemId)) = some item)
    (htask : item.taskId = s.task.id)
    (htot : 0 < s.task.totalItems) :
    (completeItem s itemId).task.processedItems = s.task.processedItems + 1 ∧
    (completeItem s itemId).task.progress
      = min (40 + ((60 * (s.task.processedItems + 1) : ℕ) : ℤ) / ((s.task.totalItems : ℕ) : ℤ)) 100 ∧
    (s.task.processedItems + 1 = s.task.totalItems →
      (completeItem s itemId).task.status = TaskStatus.completed ∧
      (completeItem s itemId).task.progress = 100) := by
  rw [completeItem_task_eq s itemId item hfind htask]
  refine ⟨rfl, ?_, ?_⟩
  · show min (completionProgress s.task) 100 = _
    rw [completionProgress_eq_div s.task htot]
  · intro hdone
    constructor
    · show (if s.task.totalItems ≤ s.task.processedItems + 1
            then TaskStatus.completed else TaskStatus.running) = TaskStatus.completed
      rw [if_pos (le_of_eq hdone.symm)]
    · show min (completionProgress s.task) 100 = 100
      rw [completionProgress_eq_div s.task htot, hdone]
      have hne : ((s.task.totalItems : ℕ) : ℤ) ≠ 0 := by
        exact_mod_cast htot.ne'
      have : ((60 * s.task.totalItems : ℕ) : ℤ) / ((s.task.totalItems : ℕ) : ℤ) = 60 := by
        push_cast
        exact Int.mul_ediv_cancel 60 hne
      rw [this]
      decide

/-- Witness for C4: a task with 3 total items and none processed, one
claimed item completing; the progress becomes `min (40 + 20) 100 = 60`. -/
theorem completion_updates_task_progress_witness :
    (c4State.queue.find? (fun i => decide (i.id = 7)) = some c4Item ∧
      c4Item.taskId = c4State.task.id ∧ 0 < c4State.task.totalItems) ∧
    ((completeItem c4State 7).task.processedItems = c4State.task.processedItems + 1 ∧
     (completeItem c4State 7).task.progress
       = min (40 + ((60 * (c4State.task.processedItems + 1) : ℕ) : ℤ)
           / ((c4State.task.totalItems : ℕ) : ℤ)) 100 ∧
     (c4State.task.processedItems + 1 = c4State.task.totalItems →
       (completeItem c4State 7).task.status = TaskStatus.completed ∧
       (completeItem c4State 7).task.progress = 100)) :=
  ⟨⟨by decide, by decide, by decide⟩,
    completion_updates_task_progress c4State 7 c4Item (by decide) (by decide) (by decide)⟩

/-- C10 (confirmed): when the owning task has `totalItems = 0`, the
completion path takes the guard branch that avoids the division entirely,
sets the progress directly to 100 and marks the task completed. -/
theorem completion_zero_totalItems_no_division (s : MState) (itemId : Nat) (item : QueueItem)
    (hfind : s.queue.find? (fun i => decide (i.id = itemId)) = some item)
    (htask : item.taskId = s.task.id)
    (h0 : s.task.totalItems = 0) :
    (completeItem s itemId).task.progress = 100 ∧
    (completeItem s itemId).task.status = TaskStatus.completed := by
  rw [completeItem_task_eq s itemId item hfind htask]
  constructor
  · show min (completionProgress s.task) 100 = 100
    unfold completionProgress
    rw [h0]
    simp
  · show (if s.task.totalItems ≤ s.task.processedItems + 1
          then TaskStatus.completed else TaskStatus.running) = TaskStatus.completed
    rw [if_pos (h0 ▸ Nat.zero_le _)]

/-- Witness for C10: the concrete zero-total task state. -/
theorem completion_zero_totalItems_witness :
    (c10State.queue.find? (fun i => decide (i.id = 8)) = some c10Item ∧
      c10Item.taskId = c10State.task.id ∧ c10State.task.totalItems = 0) ∧
    ((completeItem c10State 8).task.progress = 100 ∧
     (completeItem c10State 8).task.status = TaskStatus.completed) :=
  ⟨⟨by decide, by decide, by decide⟩,
    completion_zero_totalItems_no_division c10State 8 c10Item (by decide) (by decide) (by decide)⟩

/-- C5 (confirmed): on terminal failure (the incremented retry count
reaches `maxRetries`) the item is removed from the live queue, every
persisted record with its id is marked failed, exactly the
`itemProcessingFailed` event is emitted, exactly the per-attempt error log
is written, and the task record (its `processedItems` and status included)
is left unchanged. -/
theorem terminal_failure_effects_and_frame (s : MState) (itemId : Nat) (item : QueueItem)
    (hfind : s.queue.find? (fun i => decide (i.id = itemId)) = some item)
    (hterm : item.maxRetries ≤ item.retries + 1) :
    (failItem s itemId).task = s.task ∧
    (∀ i ∈ (failItem s itemId).queue, i.id ≠ itemId) ∧
    (∀ r ∈ (failItem s itemId).images, r.1 = item.id → r.2 = ItemStatus.failed) ∧
    (failItem s itemId).events = QEvent.itemProcessingFailed item.id :: s.events ∧
    (failItem s itemId).logs
      = { taskId := item.taskId, level := LogLevel.error,
          kind := LogKind.processingFailed item.id (item.retries + 1) } :: s.logs := by
  unfold failItem handleProcessingError
  rw [hfind]
  simp only [addLog]
  rw [if_pos hterm]
  refine ⟨rfl, ?_, ?_, rfl, rfl⟩
  · intro i hi
    have hmem := List.mem_filter.mp hi
    exact of_decide_eq_true hmem.2
  · intro r hr hr1
    unfold setImageStatus at hr
    rcases List.mem_map.mp hr with ⟨r0, _hr0, hEq⟩
    by_cases hc : r0.1 = item.id
    · rw [← hEq]
      simp [hc]
    · rw [← hEq] at hr1 ⊢
      rw [if_neg hc] at hr1 ⊢
      exact absurd hr1 hc

/-- Witness for C5: the claimed item on its third attempt fails
terminally; its record is marked failed and the task is untouched. -/
theorem terminal_failure_witness :
    (c5State.queue.find? (fun i => decide (i.id = 7)) = some c5Item ∧
      c5Item.maxRetries ≤ c5Item.retries + 1) ∧
    ((failItem c5State 7).task = c5State.task ∧
     (∀ i ∈ (failItem c5State 7).queue, i.id ≠ 7) ∧
     (∀ r ∈ (failItem c5State 7).images, r.1 = c5Item.id → r.2 = ItemStatus.failed) ∧
     (failItem c5State 7).events = QEvent.itemProcessingFailed c5Item.id :: c5State.events ∧
     (failItem c5State 7).logs
       = { taskId := c5Item.taskId, level := LogLevel.error,
           kind := LogKind.processingFailed c5Item.id (c5Item.retries + 1) } :: c5State.logs) :=
  ⟨⟨by decide, by decide⟩,
    terminal_failure_effects_and_frame c5State 7 c5Item (by decide) (by decide)⟩

/-- C8 (confirmed): when the discovery collaborator of
`startFullAutomation` rejects, the created task ends with status failed and
progress 0, exactly one additional error-level log entry is recorded, and
the scraping collaborator was invoked exactly once (the orchestrator does
not retry discovery); the handler always returns a state, so the rejection
never escapes the background processing. -/
theorem discovery_failure_marks_task_failed (s : MState) (e : String) :
    (startFullAutomation s (Except.error e)).task.status = TaskStatus.failed ∧
    (startFullAutomation s (Except.error e)).task.progress = 0 ∧
    (startFullAutomation s (Except.error e)).logs.countP
        (fun l => decide (l.level = LogLevel.error))
      = s.logs.countP (fun l => decide (l.level = LogLevel.error)) + 1 ∧
    (startFullAutomation s (Except.error e)).scrapeCalls = s.scrapeCalls + 1 := by
  unfold startFullAutomation processFullAutomation
  simp [addLog, updateTaskById, List.countP_cons]

/-- Helper: inserting adds one to the length. -/
theorem insertByPriority_length (x : QueueItem) (l : List QueueItem) :
    (insertByPriority x l).length = l.length + 1 := by
  induction l with
  | nil => rfl
  | cons y ys ih =>
      unfold insertByPriority
      split
      · simp
      · simp [ih]

/-- Helper: the insertion fold adds the length of the input to the
accumulator length. -/
theorem foldl_insert_length (l : List QueueItem) :
    ∀ acc : List QueueItem,
      (l.foldl (fun a x => insertByPriority x a) acc).length = acc.length + l.length := by
  induction l with
  | nil => intro acc; simp
  | cons x xs ih =>
      intro acc
      simp only [List.foldl_cons]
      rw [ih, insertByPriority_length]
      simp [List.length_cons]
      omega

/-- Helper: the stable sort preserves the length. -/
theorem sortByPriorityDesc_length (l : List QueueItem) :
    (sortByPriorityDesc l).length = l.length := by
  unfold sortByPriorityDesc
  rw [foldl_insert_length]
  simp

/-- Helper: the enqueue mutation emits exactly the `queueUpdated` event
carrying the size resulting from the insertion. -/
theorem pushAndSort_events (s : MState) (item : QueueItem) :
    (pushAndSort s item).events
      = QEvent.queueUpdated (s.queue.length + 1) item.id :: s.events := by
  unfold pushAndSort
  simp [sortByPriorityDesc_length]

/-- Helper: a `queueUpdated` head contributes its size. -/
theorem queueUpdatedSizes_cons_updated (n id : Nat) (evs : List QEvent) :
    queueUpdatedSizes (QEvent.queueUpdated n id :: evs) = n :: queueUpdatedSizes evs := rfl

/-- Helper: an `itemProcessingStarted` head contributes no size. -/
theorem queueUpdatedSizes_cons_started (id : Nat) (evs : List QEvent) :
    queueUpdatedSizes (QEvent.itemProcessingStarted id :: evs) = queueUpdatedSizes evs := rfl

/-- Helper: an `itemProcessingCompleted` head contributes no size. -/
theorem queueUpdatedSizes_cons_completed (id : Nat) (evs : List QEvent) :
    queueUpdatedSizes (QEvent.itemProcessingCompleted id :: evs) = queueUpdatedSizes evs := rfl

/-- Helper: an `itemProcessingFailed` head contributes no size. -/
theorem queueUpdatedSizes_cons_failed (id : Nat) (evs : List QEvent) :
    queueUpdatedSizes (QEvent.itemProcessingFailed id :: evs) = queueUpdatedSizes evs := rfl

/-- Helper: an `automationProgress` head contributes no size. -/
theorem queueUpdatedSizes_cons_progress (taskId : Nat) (p : Int) (evs : List QEvent) :
    queueUpdatedSizes (QEvent.automationProgress taskId p :: evs) = queueUpdatedSizes evs := rfl

/-- Helper: the dispatch prefix emits no `queueUpdated` event. -/
theorem processNextItem_queueUpdatedSizes (s : MState) :
    queueUpdatedSizes (processNextItem s).events = queueUpdatedSizes s.events := by
  unfold processNextItem
  split
  · rfl
  · next item heq =>
      show queueUpdatedSizes (QEvent.itemProcessingStarted item.id :: s.events)
          = queueUpdatedSizes s.events
      rw [queueUpdatedSizes_cons_started]

/-- Helper: the success path of `processQueueItem` emits no `queueUpdated`
event. -/
theorem processQueueItemSuccess_queueUpdatedSizes (s : MState) (item : QueueItem) :
    queueUpdatedSizes (processQueueItemSuccess s item).events = queueUpdatedSizes s.events := by
  simp only [processQueueItemSuccess, addLog]
  split
  · rw [queueUpdatedSizes_cons_progress]
  · rfl

/-- Helper: the completion continuation (removal included) emits no
`queueUpdated` event. -/
theorem completeItem_queueUpdatedSizes (s : MState) (itemId : Nat) :
    queueUpdatedSizes (completeItem s itemId).events = queueUpdatedSizes s.events := by
  unfold completeItem
  split
  · rfl
  · next item heq =>
      show queueUpdatedSizes (QEvent.itemProcessingCompleted item.id
            :: (processQueueItemSuccess s item).events) = queueUpdatedSizes s.events
      rw [queueUpdatedSizes_cons_completed, processQueueItemSuccess_queueUpdatedSizes]

/-- Helper: the error handler (terminal removal included) emits no
`queueUpdated` event. -/
theorem handleProcessingError_queueUpdatedSizes (s : MState) (itemId : Nat) :
    queueUpdatedSizes (handleProcessingError s itemId).events = queueUpdatedSizes s.events := by
  unfold handleProcessingError
  split
  · rfl
  · next item heq =>
      simp only [addLog]
      split
      · show queueUpdatedSizes (QEvent.itemProcessingFailed item.id :: s.events)
            = queueUpdatedSizes s.events
        rw [queueUpdatedSizes_cons_failed]
      · rfl

/-- C7 (amended): every enqueue emits exactly one `queueUpdated` event
carrying the queue size resulting from the insertion, but the removals of
an item from the live queue (on completion or terminal failure) emit no
`queueUpdated` event at all. -/
theorem queueUpdated_on_enqueue_only (s : MState) (item : QueueItem) (itemId : Nat) :
    queueUpdatedSizes (addToQueue s item).events
      = (s.queue.length + 1) :: queueUpdatedSizes s.events ∧
    queueUpdatedSizes (completeItem s itemId).events = queueUpdatedSizes s.events ∧
    queueUpdatedSizes (failItem s itemId).events = queueUpdatedSizes s.events := by
  refine ⟨?_, completeItem_queueUpdatedSizes s itemId, ?_⟩
  · simp only [addToQueue]
    split
    · rw [pushAndSort_events, queueUpdatedSizes_cons_updated]
    · rw [processNextItem_queueUpdatedSizes, pushAndSort_events, queueUpdatedSizes_cons_updated]
  · show queueUpdatedSizes (handleProcessingError s itemId).events = queueUpdatedSizes s.events
    exact handleProcessingError_queueUpdatedSizes s itemId

/-- Helper: a successful `nextPendingItem` lookup implies the worker
counter was strictly below the limit. -/
theorem nextPendingItem_some_lt (s : MState) (item : QueueItem)
    (h : nextPendingItem s = some item) :
    (s.concurrentWorkers : Int) < s.maxConcurrentWorkers := by
  unfold nextPendingItem at h
  split at h
  · exact absurd h (by simp)
  · next hcond =>
      push_neg at hcond
      exact hcond.1

/-- Helper: the dispatch prefix preserves the worker bound. -/
theorem processNextItem_workers_bound (s : MState)
    (h : (s.concurrentWorkers : Int) ≤ s.maxConcurrentWorkers) :
    ((processNextItem s).concurrentWorkers : Int) ≤ (processNextItem s).maxConcurrentWorkers := by
  unfold processNextItem
  split
  · exact h
  · next item heq =>
      have hlt := nextPendingItem_some_lt s item heq
      show ((s.concurrentWorkers + 1 : ℕ) : ℤ) ≤ s.maxConcurrentWorkers
      push_cast
      omega

/-- Helper: the `processQueueItem` success path leaves the worker counter
and the limit unchanged. -/
theorem processQueueItemSuccess_workers_max (s : MState) (item : QueueItem) :
    (processQueueItemSuccess s item).concurrentWorkers = s.concurrentWorkers ∧
    (processQueueItemSuccess s item).maxConcurrentWorkers = s.maxConcurrentWorkers := by
  simp only [processQueueItemSuccess, addLog]
  split
  · exact ⟨rfl, rfl⟩
  · exact ⟨rfl, rfl⟩

/-- Helper: completion decrements (or leaves) the worker counter and keeps
the limit. -/
theorem completeItem_workers_max (s : MState) (itemId : Nat) :
    (completeItem s itemId).concurrentWorkers ≤ s.concurrentWorkers ∧
    (completeItem s itemId).maxConcurrentWorkers = s.maxConcurrentWorkers := by
  unfold completeItem
  split
  · exact ⟨Nat.sub_le _ _, rfl⟩
  · next item heq =>
      constructor
      · show (processQueueItemSuccess s item).concurrentWorkers - 1 ≤ s.concurrentWorkers
        rw [(processQueueItemSuccess_workers_max s item).1]
        exact Nat.sub_le _ _
      · show (processQueueItemSuccess s item).maxConcurrentWorkers = s.maxConcurrentWorkers
        exact (processQueueItemSuccess_workers_max s item).2

/-- Helper: the error handler leaves the worker counter and the limit
unchanged. -/
theorem handleProcessingError_workers_max (s : MState) (itemId : Nat) :
    (handleProcessingError s itemId).concurrentWorkers = s.concurrentWorkers ∧
    (handleProcessingError s itemId).maxConcurrentWorkers = s.maxConcurrentWorkers := by
  unfold handleProcessingError
  split
  · exact ⟨rfl, rfl⟩
  · next item heq =>
      simp only [addLog]
      split
      · exact ⟨rfl, rfl⟩
      · exact ⟨rfl, rfl⟩

/-- Helper: failure decrements (or leaves) the worker counter and keeps the
limit. -/
theorem failItem_workers_max (s : MState) (itemId : Nat) :
    (failItem s itemId).concurrentWorkers ≤ s.concurrentWorkers ∧
    (failItem s itemId).maxConcurrentWorkers = s.maxConcurrentWorkers := by
  constructor
  · show (handleProcessingError s itemId).concurrentWorkers - 1 ≤ s.concurrentWorkers
    rw [(handleProcessingError_workers_max s itemId).1]
    exact Nat.sub_le _ _
  · exact (handleProcessingError_workers_max s itemId).2

/-- Helper: `addToQueue` (enqueue plus dispatch prefix) preserves the
worker bound. -/
theorem addToQueue_workers_bound (s : MState) (item : QueueItem)
    (h : (s.concurrentWorkers : Int) ≤ s.maxConcurrentWorkers) :
    ((addToQueue s item).concurrentWorkers : Int) ≤ (addToQueue s item).maxConcurrentWorkers := by
  simp only [addToQueue]
  split
  · exact h
  · exact processNextItem_workers_bound (pushAndSort s item) h

/-- Helper: every step without `setMaxConcurrentWorkers` preserves the
worker bound. -/
theorem QStepNS_preserves_bound {s t : MState} (hstep : QStepNS s t)
    (h : (s.concurrentWorkers : Int) ≤ s.maxConcurrentWorkers) :
    (t.concurrentWorkers : Int) ≤ t.maxConcurrentWorkers := by
  cases hstep with
  | add item => exact addToQueue_workers_bound s item h
  | tick => exact processNextItem_workers_bound s h
  | complete itemId hproc =>
      have hcm := completeItem_workers_max s itemId
      rw [hcm.2]
      have hle : ((completeItem s itemId).concurrentWorkers : Int)
          ≤ (s.concurrentWorkers : Int) := by exact_mod_cast hcm.1
      exact le_trans hle h
  | fail itemId hproc =>
      have hfm := failItem_workers_max s itemId
      rw [hfm.2]
      have hle : ((failItem s itemId).concurrentWorkers : Int)
          ≤ (s.concurrentWorkers : Int) := by exact_mod_cast hfm.1
      exact le_trans hle h

/-- C2 (amended): in every state reachable without a
`setMaxConcurrentWorkers` call, the number of concurrently active workers
is at most the configured maximum (the dispatch path never claims an item
at or above the limit); a `setMaxConcurrentWorkers` call lowering the limit
below the current worker count can transiently violate the bound. -/
theorem workers_le_max_of_reach_noSetMax (s : MState) (h : QReachNS s) :
    (s.concurrentWorkers : Int) ≤ s.maxConcurrentWorkers := by
  induction h with
  | init => decide
  | step hr hstep ih => exact QStepNS_preserves_bound hstep ih

/-- Witness for the amended C2 theorem at the initial state. -/
theorem workers_le_max_witness :
    QReachNS initState ∧
    ((initState.concurrentWorkers : Int) ≤ initState.maxConcurrentWorkers) :=
  ⟨QReachNS.init, workers_le_max_of_reach_noSetMax initState QReachNS.init⟩

/-- Helper: inserting permutes to consing. -/
theorem insertByPriority_perm (x : QueueItem) (l : List QueueItem) :
    List.Perm (insertByPriority x l) (x :: l) := by
  induction l with
  | nil => exact List.Perm.refl _
  | cons y ys ih =>
      unfold insertByPriority
      split
      · exact List.Perm.refl _
      · exact (ih.cons y).trans (List.Perm.swap x y ys)

/-- Helper: insertion preserves descending sortedness. -/
theorem insertByPriority_sorted (x : QueueItem) (l : List QueueItem)
    (hl : SortedByPriority l) : SortedByPriority (insertByPriority x l) := by
  unfold SortedByPriority at *
  induction l with
  | nil => simp [insertByPriority]
  | cons y ys ih =>
      rw [List.sorted_cons] at hl
      unfold insertByPriority
      split
      · next hlt =>
          rw [List.sorted_cons]
          constructor
          · intro b hb
            rcases List.mem_cons.mp hb with hb | hb
            · subst hb
              exact le_of_lt hlt
            · exact le_trans (hl.1 b hb) (le_of_lt hlt)
          · rw [List.sorted_cons]
            exact hl
      · next hge =>
          rw [List.sorted_cons]
          constructor
          · intro b hb
            have hb2 := (insertByPriority_perm x ys).mem_iff.mp hb
            rcases List.mem_cons.mp hb2 with hb2 | hb2
            · subst hb2
              exact le_of_not_lt hge
            · exact hl.1 b hb2
          · exact ih hl.2

/-- Helper: inserting below everything appends at the end (the stable sort
keeps a pushed item after all items of greater or equal priority). -/
theorem insertByPriority_of_le (x : QueueItem) (l : List QueueItem)
    (h : ∀ y ∈ l, x.priority ≤ y.priority) : insertByPriority x l = l ++ [x] := by
  induction l with
  | nil => rfl
  | cons y ys ih =>
      unfold insertByPriority
      rw [if_neg (not_lt.mpr (h y (List.mem_cons_self y ys)))]
      rw [ih (fun z hz => h z (List.mem_cons_of_mem y hz))]
      rfl

/-- Helper: the insertion fold fixes an already sorted list. -/
theorem foldl_insert_of_sorted (l : List QueueItem) :
    ∀ acc : List QueueItem, SortedByPriority (acc ++ l) →
      l.foldl (fun a x => insertByPriority x a) acc = acc ++ l := by
  induction l with
  | nil =>
      intro acc _
      simp
  | cons x l ih =>
      intro acc h
      have hx : ∀ y ∈ acc, x.priority ≤ y.priority := by
        intro y hy
        have hpw : List.Pairwise (fun a b : QueueItem => b.priority ≤ a.priority)
            (acc ++ x :: l) := h
        exact (List.pairwise_append.mp hpw).2.2 y hy x (List.mem_cons_self x l)
      simp only [List.foldl_cons]
      rw [insertByPriority_of_le x acc hx]
      have hre : (acc ++ [x]) ++ l = acc ++ x :: l := by simp
      rw [ih (acc ++ [x]) (by rw [hre]; exact h), hre]

/-- Helper: the stable sort fixes an already sorted list. -/
theorem sortByPriorityDesc_of_sorted (l : List QueueItem) (h : SortedByPriority l) :
    sortByPriorityDesc l = l := by
  unfold sortByPriorityDesc
  have hfix := foldl_insert_of_sorted l [] (by simpa using h)
  simpa using hfix

/-- Helper: sorting after a push is inserting into the sort of the rest. -/
theorem sortByPriorityDesc_append_single (l : List QueueItem) (x : QueueItem) :
    sortByPriorityDesc (l ++ [x]) = insertByPriority x (sortByPriorityDesc l) := by
  unfold sortByPriorityDesc
  rw [List.foldl_append]
  rfl

/-- Helper: unfolding the priority filter over a cons cell. -/
theorem filterPriority_cons (p : Int) (y : QueueItem) (l : List QueueItem) :
    filterPriority p (y :: l)
      = if y.priority = p then y :: filterPriority p l else filterPriority p l := by
  by_cases h : y.priority = p <;> simp [filterPriority, List.filter_cons, h]

/-- Helper: the priority filter distributes over append. -/
theorem filterPriority_append (p : Int) (l1 l2 : List QueueItem) :
    filterPriority p (l1 ++ l2) = filterPriority p l1 ++ filterPriority p l2 := by
  unfold filterPriority
  rw [List.filter_append]

/-- Helper: the priority filter of a list without that priority is empty. -/
theorem filterPriority_eq_nil (p : Int) (l : List QueueItem)
    (h : ∀ z ∈ l, z.priority ≠ p) : filterPriority p l = [] := by
  induction l with
  | nil => rfl
  | cons y ys ih =>
      rw [filterPriority_cons, if_neg (h y (List.mem_cons_self y ys))]
      exact ih (fun z hz => h z (List.mem_cons_of_mem y hz))

/-- Helper: inserting an item of a different priority leaves that priority
class of the queue unchanged. -/
theorem filterPriority_insert_ne (x : QueueItem) (l : List QueueItem) (p : Int)
    (hne : x.priority ≠ p) :
    filterPriority p (insertByPriority x l) = filterPriority p l := by
  induction l with
  | nil =>
      unfold insertByPriority
      rw [filterPriority_cons, if_neg hne]
  | cons y ys ih =>
      unfold insertByPriority
      split
      · rw [filterPriority_cons, if_neg hne]
      · simp only [filterPriority_cons, ih]

/-- Helper: inserting into a sorted queue puts the new item after every
queued item of its own priority (stability of the push-then-sort step). -/
theorem filterPriority_insert_eq (x : QueueItem) (l : List QueueItem)
    (hl : SortedByPriority l) :
    filterPriority x.priority (insertByPriority x l)
      = filterPriority x.priority l ++ [x] := by
  induction l with
  | nil =>
      unfold insertByPriority
      rw [filterPriority_cons, if_pos rfl]
      rfl
  | cons y ys ih =>
      have hl2 : (∀ b ∈ ys, b.priority ≤ y.priority) ∧ SortedByPriority ys := by
        unfold SortedByPriority at hl ⊢
        exact List.sorted_cons.mp hl
      unfold insertByPriority
      split
      · next hlt =>
          rw [filterPriority_cons, if_pos rfl]
          have hnone : filterPriority x.priority (y :: ys) = [] := by
            apply filterPriority_eq_nil
            intro z hz
            rcases List.mem_cons.mp hz with hz | hz
            · subst hz
              exact ne_of_lt hlt
            · exact ne_of_lt (lt_of_le_of_lt (hl2.1 z hz) hlt)
          rw [hnone]
          rfl
      · next hge =>
          rw [filterPriority_cons, filterPriority_cons, ih hl2.2]
          by_cases hyp : y.priority = x.priority
          · rw [if_pos hyp, if_pos hyp]
            simp
          · rw [if_neg hyp, if_neg hyp]

/-- Helper: enqueue folds leave the worker counter and limit unchanged. -/
theorem enqueueAll_fields (items : List QueueItem) :
    ∀ s : MState,
      (enqueueAll s items).concurrentWorkers = s.concurrentWorkers ∧
      (enqueueAll s items).maxConcurrentWorkers = s.maxConcurrentWorkers := by
  induction items with
  | nil => intro s; exact ⟨rfl, rfl⟩
  | cons x items ih =>
      intro s
      simp only [enqueueAll, List.foldl_cons] at ih ⊢
      exact ih (pushAndSort s x)

/-- Helper invariant: folding enqueue insertions over a queue that is
sorted and stable with respect to the items seen so far keeps the queue
sorted, keeps every priority class in enqueue order, and keeps the queue a
permutation of the seen items. -/
theorem enqueueAll_queue_inv (items : List QueueItem) :
    ∀ (s : MState) (seen : List QueueItem),
      SortedByPriority s.queue →
      (∀ p, filterPriority p s.queue = filterPriority p seen) →
      List.Perm s.queue seen →
      SortedByPriority (enqueueAll s items).queue ∧
      (∀ p, filterPriority p (enqueueAll s items).queue = filterPriority p (seen ++ items)) ∧
      List.Perm (enqueueAll s items).queue (seen ++ items) := by
  induction items with
  | nil =>
      intro s seen hs hf hp
      simp only [enqueueAll, List.foldl_nil]
      exact ⟨hs, by simpa using hf, by simpa using hp⟩
  | cons x items ih =>
      intro s seen hs hf hp
      have hq1 : (pushAndSort s x).queue = insertByPriority x s.queue := by
        show sortByPriorityDesc (s.queue ++ [x]) = _
        rw [sortByPriorityDesc_append_single, sortByPriorityDesc_of_sorted s.queue hs]
      have hs1 : SortedByPriority (pushAndSort s x).queue := by
        rw [hq1]
        exact insertByPriority_sorted x s.queue hs
      have hf1 : ∀ p, filterPriority p (pushAndSort s x).queue
          = filterPriority p (seen ++ [x]) := by
        intro p
        rw [hq1, filterPriority_append]
        by_cases hxp : x.priority = p
        · subst hxp
          rw [filterPriority_insert_eq x s.queue hs, hf x.priority]
          congr 1
          rw [filterPriority_cons, if_pos rfl]
          rfl
        · rw [filterPriority_insert_ne x s.queue p hxp, hf p,
            filterPriority_eq_nil p [x] ?_]
          · simp
          · intro z hz
            rw [List.mem_singleton.mp hz]
            exact hxp
      have hp1 : List.Perm (pushAndSort s x).queue (seen ++ [x]) := by
        rw [hq1]
        exact ((insertByPriority_perm x s.queue).trans (hp.cons x)).trans
          (List.perm_append_singleton x seen).symm
      have hnext := ih (pushAndSort s x) (seen ++ [x]) hs1 hf1 hp1
      simp only [enqueueAll, List.foldl_cons] at hnext ⊢
      have hre : (seen ++ [x]) ++ items = seen ++ x :: items := by simp
      rw [hre] at hnext
      exact hnext

/-- C3 (amended): for every sequence of enqueue insertions into the empty
queue (all items pending, no intervening retry demotion), the item the
dispatch would claim next is a pending item of maximal priority, and among
the enqueued items of that priority it is the earliest enqueued; the retry
path demotes priority without re-sorting, so after a demotion the claimed
item need not be of maximal priority until a later enqueue re-sorts. -/
theorem claim_max_priority_stable_for_enqueues (items : List QueueItem)
    (hpend : ∀ x ∈ items, x.status = ItemStatus.pending)
    (hne : items ≠ []) :
    ∃ c, nextPendingItem (enqueueAll initState items) = some c ∧
      c ∈ items ∧
      (∀ y ∈ items, y.priority ≤ c.priority) ∧
      (filterPriority c.priority items).head? = some c := by
  obtain ⟨hsorted, hfilters, hperm⟩ :=
    enqueueAll_queue_inv items initState []
      (by unfold SortedByPriority; exact List.sorted_nil)
      (fun p => rfl) (List.Perm.refl [])
  simp only [List.nil_append] at hfilters hperm
  have hqne : (enqueueAll initState items).queue ≠ [] := by
    intro h0
    rw [h0] at hperm
    exact hne (List.Perm.eq_nil hperm.symm)
  obtain ⟨c, rest, hq⟩ := List.exists_cons_of_ne_nil hqne
  have hcq : c ∈ (enqueueAll initState items).queue := by
    rw [hq]
    exact List.mem_cons_self c rest
  have hcitems : c ∈ items := hperm.mem_iff.mp hcq
  have hcpend : c.status = ItemStatus.pending := hpend c hcitems
  refine ⟨c, ?_, hcitems, ?_, ?_⟩
  · have hguard : ¬((enqueueAll initState items).maxConcurrentWorkers
        ≤ ((enqueueAll initState items).concurrentWorkers : Int)
        ∨ (enqueueAll initState items).queue.length = 0) := by
      push_neg
      constructor
      · rw [(enqueueAll_fields items initState).1, (enqueueAll_fields items initState).2]
        decide
      · rw [hq]
        simp
    unfold nextPendingItem
    rw [if_neg hguard, hq]
    apply List.find?_cons_of_pos
    exact decide_eq_true hcpend
  · intro y hy
    have hyq : y ∈ (enqueueAll initState items).queue := hperm.mem_iff.mpr hy
    rw [hq] at hyq
    rcases List.mem_cons.mp hyq with rfl | hyq
    · exact le_refl _
    · have hsc := hsorted
      rw [hq] at hsc
      unfold SortedByPriority at hsc
      rw [List.sorted_cons] at hsc
      exact hsc.1 y hyq
  · have hfp := hfilters c.priority
    rw [hq, filterPriority_cons, if_pos rfl] at hfp
    rw [← hfp]
    rfl

/-- Witness for the amended C3 theorem: three pending items with
priorities 2, 5, 5; the claimed item is the earliest enqueued priority-5
item. -/
theorem claim_max_priority_witness :
    ((∀ x ∈ c3WitItems, x.status = ItemStatus.pending) ∧ c3WitItems ≠ []) ∧
    (∃ c, nextPendingItem (enqueueAll initState c3WitItems) = some c ∧
      c ∈ c3WitItems ∧
      (∀ y ∈ c3WitItems, y.priority ≤ c.priority) ∧
      (filterPriority c.priority c3WitItems).head? = some c) :=
  ⟨⟨by decide, by decide⟩,
    claim_max_priority_stable_for_enqueues c3WitItems (by decide) (by decide)⟩

end MangoFlow
